import Mathlib

/-!
Shallow embedding of the Harmony RPC blockchain query service
(`src/rpc/blockchain.go`, package `rpc`), covering the admission gate
(`wait` / `NewPublicBlockchainAPI`), the signer resolver (`getSignerData`),
the derived-data caches (`bcServiceHelper`), the option parser
(`getBlockOptions`), and the representative query operations
(`GetBlockByNumber`, `GetBlocks`, `GetBlockSigners`, `GetBlockSignerKeys`,
`IsBlockSigner`, `GetSignedBlocks`).

External collaborators (the chain-state engine, committee scheduler, bech32
codec, BLS mask, block factories of packages v1/v2/eth, and the V2 options
unmarshaller) are modelled as function fields of an `Env` record; the code of
this file follows the Go control flow of `src/rpc/blockchain.go` statement by
statement.  Machine integers: Go `int64` block numbers are `Int`; the Go
conversion `uint64(x)` of an `int64` is `(x % 2^64).toNat`.
-/

set_option autoImplicit false

namespace Harmony

deriving instance DecidableEq for Except

/-- Errors are carried as plain message strings (Go `error` values). -/
abbrev Err := String

/-- `rpc.PendingBlockNumber` sentinel (go-ethereum convention: -2;
stated in the comment inside `isBlockGreaterThanLatest`). -/
def pendingBlockNumber : Int := -2

/-- `rpc.LatestBlockNumber` sentinel (go-ethereum convention: -1). -/
def latestBlockNumber : Int := -1

/-- `ErrRequestedBlockTooHigh` of the rpc package (declared outside
`blockchain.go`; the exact message text is immaterial, only its identity). -/
def ErrRequestedBlockTooHigh : Err := "requested block number greater than current block number"

/-- `ErrUnknownRPCVersion` of the rpc package. -/
def ErrUnknownRPCVersion : Err := "API version unknown"

/-- Message of `errors.New("pending block number not implemented")`. -/
def errPendingNotImplemented : Err := "pending block number not implemented"

/-- Message of `errors.New("cannot get signer keys for pending blocks")`. -/
def errPendingSignerKeys : Err := "cannot get signer keys for pending blocks"

/-- Message of `errors.New("no signing data for pending block number")`. -/
def errPendingSigningData : Err := "no signing data for pending block number"

/-- Message of `errors.New("unknown block")`. -/
def errUnknownBlock : Err := "unknown block"

/-- Message of the `GetBlocks` range-size error
(`fmt.Errorf("GetBlocks query must be smaller than size %v", rpcGetBlocksLimit)`). -/
def errGetBlocksRange : Err := "GetBlocks query must be smaller than size 1024"

/-- Message of `ctx.Err()` when the caller has cancelled the request context. -/
def errContextCanceled : Err := "context canceled"

/-- Message of `errors.New("negative signed in epoch")`. -/
def errNegativeSigned : Err := "negative signed in epoch"

/-- Message of `errors.New("staking transaction data is unsupported to Eth service")`. -/
def errStakingUnsupportedEth : Err := "staking transaction data is unsupported to Eth service"

/-- Message of `fmt.Errorf("unsupported version %v", helper.version)`. -/
def errUnsupportedVersion : Err := "unsupported version"

/-- Context prefixed by `errors.Wrap(err, "getSignerData")`. -/
def wrapGetSignerDataMsg : String := "getSignerData: "

/-- `rpcGetBlocksLimit = 1024`. -/
def rpcGetBlocksLimit : Int := 1024

/-- `blockCacheSize = 2048` (also `signersCacheSize`, `stakingTxsCacheSize`,
`leaderCacheSize`). -/
def blockCacheSize : Nat := 2048

/-- The RPC API `Version` (type declared outside `blockchain.go`; the file
switches over the named constants `V1`, `V2`, `Eth` and has a `default`
branch, modelled by `Other`). -/
inductive Version where
  | V1
  | V2
  | Eth
  | Other
  deriving DecidableEq, Repr

/-- A `golang.org/x/time/rate.Limiter` handle: configured rate, burst, and the
current token count of the bucket. -/
structure Limiter where
  limit : Int
  burst : Nat
  tokens : Nat
  deriving DecidableEq, Repr

/-- `rate.NewLimiter(rate.Limit(limit), 1)`: burst 1, bucket initially full. -/
def Limiter.new (limit : Int) : Limiter :=
  { limit := limit, burst := 1, tokens := 1 }

/-- The part of `PublicBlockchainService` state the embedded operations read:
the fixed API version and the (possibly nil) rate limiter. -/
structure Service where
  version : Version
  limiter : Option Limiter
  deriving DecidableEq, Repr

/-- Embeds `NewPublicBlockchainAPI` (src/rpc/blockchain.go lines 51-65),
restricted to the fields the embedded operations use.  The Go function
declares `var limiter *rate.Limiter` and then, inside `if limiterEnable`,
writes `limiter := rate.NewLimiter(rate.Limit(limit), 1)`: the `:=` declares
a NEW variable that shadows the outer `limiter`, which therefore is still nil
when the service struct is built.  The shadowed inner variable is bound here
as `_shadowed` and, exactly as in the source, never flows into the service. -/
def NewPublicBlockchainAPI (version : Version) (limiterEnable : Bool) (limit : Int) : Service :=
  let limiter : Option Limiter := none
  let _shadowed : Option Limiter :=
    if limiterEnable then some (Limiter.new limit) else none
  { version := version, limiter := limiter }

/-- Outcome of `PublicBlockchainService.wait`: `immediateOk` is the
`s.limiter == nil` fast path returning nil without touching any bucket,
`tokenOk` is a successful `limiter.Wait`, and `deadlineExceeded` is the error
returned when the 5-second deadline context expires first. -/
inductive WaitOutcome where
  | immediateOk
  | tokenOk
  | deadlineExceeded
  deriving DecidableEq, Repr

/-- Embeds `PublicBlockchainService.wait` (src/rpc/blockchain.go lines
145-159).  The nil-limiter branch is the source's `return nil`.  The non-nil
branch is modelled from the spec: `golang.org/x/time/rate` is an external
library; with burst 1, a call consumes an available token, and at rate 0 a
drained bucket is never refilled, so `limiter.Wait(deadlineCtx)` runs into
the fixed 5-second deadline and returns a deadline error.  The returned
`Service` carries the updated bucket (the Go limiter mutates shared state). -/
def Service.wait (s : Service) : WaitOutcome × Service :=
  match s.limiter with
  | none => (.immediateOk, s)
  | some l =>
    if 0 < l.tokens then
      (.tokenOk, { s with limiter := some { l with tokens := l.tokens - 1 } })
    else if l.limit ≤ 0 then
      (.deadlineExceeded, s)
    else
      (.tokenOk, s)

/-- `rpc_common.BlockArgs`, restricted to the fields `blockchain.go` sets:
`WithSigners`, `FullTx`, `InclStaking`. -/
structure BlockArgs where
  withSigners : Bool
  fullTx : Bool
  inclStaking : Bool
  deriving DecidableEq, Repr

/-- The dynamic `opts interface{}` parameter of `getBlockOptions`: either a
`*rpc_common.BlockArgs` value, a bare boolean, or anything else (an opaque
payload handed to the V2 unmarshaller). -/
inductive OptsPayload where
  | args (a : BlockArgs)
  | boolOpt (b : Bool)
  | rawOpt (v : Nat)
  deriving DecidableEq, Repr

/-- A committee roster slot (`shard.Slot`): validator ECDSA address and BLS
public key, both opaque handles here. -/
structure Slot where
  ecdsaAddress : Nat
  blsPublicKey : Nat
  deriving DecidableEq, Repr

/-- An opaque `internal_bls.Mask` handle. -/
abbrev Mask := Nat

/-- A block as read by this layer: only its `NumberU64()` is consumed
(factories and staking-transaction encoders receive the whole block, which
the `Env` functions below take as argument). -/
structure Block where
  number : Nat
  deriving DecidableEq, Repr

/-- An opaque rendered block (result of `rpcBlockFactory.NewBlock`). -/
abbrev RenderedBlock := Nat

/-- An opaque rendered staking-transaction list
(`v1.StakingTransactions` / `v2.StakingTransactions`). -/
abbrev StkList := Nat

/-- A validator record: the monotone `Counters.NumBlocksSigned` big.Int. -/
structure ValRecord where
  numBlocksSigned : Int
  deriving DecidableEq, Repr

/-- The external collaborators of `blockchain.go`, as one record of functions:
chain-state engine (`hmy`), committee data, codecs, block factories and the
V2 options unmarshaller.  `head` is `CurrentBlock().Number()` =
`CurrentHeader().Number()`; `currentEpoch` is `CurrentBlock().Epoch()`. -/
structure Env where
  head : Nat
  currentEpoch : Nat
  isStakingEpoch : Nat → Bool
  blocksPerEpoch : Nat → Nat
  blockByNumber : Nat → Option Block
  getBlockSigners : Nat → Except Err (List Slot × Mask)
  addressToBech32 : Nat → Except Err String
  keyEnabled : Mask → Nat → Except Err Bool
  hexOfKey : Nat → String
  bech32ToAddress : String → Except Err Nat
  readValidatorInformation : Nat → Except Err ValRecord
  readValidatorSnapshot : Nat → Except Err ValRecord
  newBlock : Version → Block → BlockArgs → Except Err RenderedBlock
  unmarshalBlockArgs : OptsPayload → Except Err BlockArgs
  stakingTxsFromBlockV1 : Block → Except Err StkList
  stakingTxsFromBlockV2 : Block → Except Err StkList

/-- Embeds `getBlockOptions` (src/rpc/blockchain.go lines 867-892): a payload
that already is a `*rpc_common.BlockArgs` is returned as-is before any
version switch; V1/Eth accept a bare boolean as `FullTx` (with
`WithSigners: false, InclStaking: true`) and reject anything else; V2 hands
the payload to `BlockArgs.UnmarshalFromInterface` (external, in `Env`). -/
def getBlockOptions (env : Env) (version : Version) (opts : OptsPayload) :
    Except Err BlockArgs :=
  match opts with
  | .args a => .ok a
  | _ =>
    match version with
    | .V1 | .Eth =>
      match opts with
      | .boolOpt fullTx => .ok { withSigners := false, fullTx := fullTx, inclStaking := true }
      | _ => .error "invalid type for block arguments"
    | .V2 => env.unmarshalBlockArgs opts
    | .Other => .error ErrUnknownRPCVersion

/-- Embeds `isBlockGreaterThanLatest` (src/rpc/blockchain.go lines 894-903):
pending is always "too high", latest never is, and a concrete number is
converted with `uint64(blockNum)` and compared against the head. -/
def isBlockGreaterThanLatest (env : Env) (blockNum : Int) : Bool :=
  if blockNum = pendingBlockNumber then true
  else if blockNum = latestBlockNumber then false
  else decide ((blockNum % (2 : Int) ^ 64) > (env.head : Int))

/-- A `hashicorp/golang-lru` cache handle: bounded capacity, entries kept in
most-recently-used-first order. -/
structure LruCache (V : Type) where
  cap : Nat
  entries : List (Nat × V)
  deriving DecidableEq, Repr

/-- Pure view of the stored mapping: the value associated with `k`, if any. -/
def LruCache.lookup {V : Type} (c : LruCache V) (k : Nat) : Option V :=
  (c.entries.find? (fun p => p.1 == k)).map (fun p => p.2)

/-- `lru.Cache.Get`: returns the stored value and, on a hit, marks the entry
most recently used; a miss leaves the cache untouched. -/
def LruCache.get {V : Type} (c : LruCache V) (k : Nat) : Option V × LruCache V :=
  match c.entries.find? (fun p => p.1 == k) with
  | some kv =>
    (some kv.2, { cap := c.cap, entries := (k, kv.2) :: c.entries.filter (fun p => p.1 != k) })
  | none => (none, c)

/-- `lru.Cache.Add`: inserts (or renews) the entry at the front and evicts
least-recently-used entries beyond the capacity. -/
def LruCache.add {V : Type} (c : LruCache V) (k : Nat) (v : V) : LruCache V :=
  { cap := c.cap, entries := ((k, v) :: c.entries.filter (fun p => p.1 != k)).take c.cap }

/-- A fresh cache of `blockCacheSize` entries, as created by
`PublicBlockchainService.newHelper` via `lru.New`. -/
def newCache (V : Type) : LruCache V :=
  { cap := blockCacheSize, entries := [] }

/-- Embeds the `signerData` struct (src/rpc/blockchain.go lines 995-1000):
bech32 addresses and BLS key hexes of the signers, plus the epoch committee
slots and the block's signature mask. -/
structure SignerData where
  signers : List String
  blsSigners : List String
  slots : List Slot
  mask : Mask
  deriving DecidableEq, Repr

/-- Embeds the `for _, validator := range slots` loop of the free function
`getSignerData` (src/rpc/blockchain.go lines 1051-1060): per slot, encode the
ECDSA address to bech32 (an encoding failure aborts the whole resolution);
then, if `mask.KeyEnabled` returns `(true, nil)`, append address and key hex
to the two lists; any other outcome of `KeyEnabled` — `false` or an error —
leaves the slot out and the loop continues. -/
def signersOfSlots (env : Env) (mask : Mask) : List Slot → Except Err (List String × List String)
  | [] => .ok ([], [])
  | v :: rest =>
    match env.addressToBech32 v.ecdsaAddress with
    | .error e => .error e
    | .ok oneAddress =>
      match signersOfSlots env mask rest with
      | .error e => .error e
      | .ok (restSigners, restBls) =>
        match env.keyEnabled mask v.blsPublicKey with
        | .ok true => .ok (oneAddress :: restSigners, env.hexOfKey v.blsPublicKey :: restBls)
        | _ => .ok (restSigners, restBls)

/-- Embeds the free function `getSignerData` (src/rpc/blockchain.go lines
1044-1067): fetch roster and mask via `hmy.GetBlockSigners`, fold the slot
loop, and package the four fields. -/
def getSignerData (env : Env) (number : Nat) : Except Err SignerData :=
  match env.getBlockSigners number with
  | .error e => .error e
  | .ok (slots, mask) =>
    match signersOfSlots env mask slots with
    | .error e => .error e
    | .ok (signers, blsSigners) =>
      .ok { signers := signers, blsSigners := blsSigners, slots := slots, mask := mask }

/-- Embeds the method `bcServiceHelper.getSignerData` (src/rpc/blockchain.go
lines 1031-1042), the get-or-compute wrapper over the signers cache.  The
third component records whether the compute path (the free `getSignerData`)
was invoked, which in the Go code is determined by the same branch. -/
def bcHelperGetSignerData (env : Env) (cache : LruCache SignerData) (bn : Nat) :
    Except Err SignerData × LruCache SignerData × Bool :=
  match cache.get bn with
  | (some sd, cache') => (.ok sd, cache', false)
  | (none, cache') =>
    match getSignerData env bn with
    | .error e => (.error (wrapGetSignerDataMsg ++ e), cache', true)
    | .ok sd => (.ok sd, cache'.add bn sd, true)

/-- Embeds `bcServiceHelper.GetSigners` (src/rpc/blockchain.go lines
1002-1008): cached signer data of the block's number, projected to the
bech32 address list. -/
def helperGetSigners (env : Env) (cache : LruCache SignerData) (b : Block) :
    Except Err (List String) × LruCache SignerData :=
  match bcHelperGetSignerData env cache b.number with
  | (.error e, cache', _) => (.error e, cache')
  | (.ok sd, cache', _) => (.ok sd.signers, cache')

/-- Embeds `bcServiceHelper.GetBLSSigners` (src/rpc/blockchain.go lines
1010-1016): cached signer data projected to the BLS key hex list. -/
def helperGetBLSSigners (env : Env) (cache : LruCache SignerData) (bn : Nat) :
    Except Err (List String) × LruCache SignerData :=
  match bcHelperGetSignerData env cache bn with
  | (.error e, cache', _) => (.error e, cache')
  | (.ok sd, cache', _) => (.ok sd.blsSigners, cache')

/-- Embeds `bcServiceHelper.IsSigner` (src/rpc/blockchain.go lines
1018-1029): membership of the bech32 address in the cached signer list. -/
def helperIsSigner (env : Env) (cache : LruCache SignerData) (oneAddr : String) (bn : Nat) :
    Except Err Bool × LruCache SignerData :=
  match bcHelperGetSignerData env cache bn with
  | (.error e, cache', _) => (.error e, cache')
  | (.ok sd, cache', _) => (.ok (sd.signers.contains oneAddr), cache')

/-- The miss-path computation of `bcServiceHelper.GetStakingTxs`
(src/rpc/blockchain.go lines 963-976): the `switch helper.version` that
renders the block's staking transactions for V1/V2 and always fails for the
Eth service. -/
def stakingTxsCompute (env : Env) (version : Version) (b : Block) : Except Err StkList :=
  match version with
  | .V1 => env.stakingTxsFromBlockV1 b
  | .V2 => env.stakingTxsFromBlockV2 b
  | .Eth => .error errStakingUnsupportedEth
  | .Other => .error errUnsupportedVersion

/-- Embeds `bcServiceHelper.GetStakingTxs` (src/rpc/blockchain.go lines
958-982), the get-or-compute wrapper over the staking-transactions cache,
with `stakingTxsCompute` as its miss-path computation.  The third component
records whether the compute path was taken. -/
def GetStakingTxs (env : Env) (version : Version) (cache : LruCache StkList) (b : Block) :
    Except Err StkList × LruCache StkList × Bool :=
  match cache.get b.number with
  | (some x, cache') => (.ok x, cache', false)
  | (none, cache') =>
    match stakingTxsCompute env version b with
    | .error e => (.error e, cache', true)
    | .ok x => (.ok x, cache'.add b.number x, true)

/-- Go `uint64(x)` conversion of an `int64` block number. -/
def toUint64 (x : Int) : Nat := (x % (2 : Int) ^ 64).toNat

/-- Embeds `GetBlockSigners` (src/rpc/blockchain.go lines 341-368): pending
is an error; block 0 or any block at or beyond the head yields an empty list
with no error; a block beyond the head (after those guards, only reachable
for negative wrapped numbers) is the too-high error; otherwise resolve the
number, fetch the block and delegate to the helper. -/
def GetBlockSigners (env : Env) (cache : LruCache SignerData) (blockNumber : Int) :
    Except Err (List String) × LruCache SignerData :=
  let blockNum := blockNumber
  if blockNum = pendingBlockNumber then (.error errPendingSignerKeys, cache)
  else if blockNum = 0 ∨ blockNum ≥ (env.head : Int) then (.ok [], cache)
  else if isBlockGreaterThanLatest env blockNum then (.error ErrRequestedBlockTooHigh, cache)
  else
    let bn : Nat := if blockNum = latestBlockNumber then env.head else toUint64 blockNum
    match env.blockByNumber bn with
    | none => (.error errUnknownBlock, cache)
    | some blk => helperGetSigners env cache blk

/-- Embeds `GetBlockSignerKeys` (src/rpc/blockchain.go lines 371-394): the
same guards as `GetBlockSigners`, then the BLS key list of the helper. -/
def GetBlockSignerKeys (env : Env) (cache : LruCache SignerData) (blockNumber : Int) :
    Except Err (List String) × LruCache SignerData :=
  let blockNum := blockNumber
  if blockNum = pendingBlockNumber then (.error errPendingSignerKeys, cache)
  else if blockNum = 0 ∨ blockNum ≥ (env.head : Int) then (.ok [], cache)
  else if isBlockGreaterThanLatest env blockNum then (.error ErrRequestedBlockTooHigh, cache)
  else
    let bn : Nat := if blockNum = latestBlockNumber then env.head else toUint64 blockNum
    helperGetBLSSigners env cache bn

/-- Embeds `IsBlockSigner` (src/rpc/blockchain.go lines 397-421): block 0 is
`(false, nil)`; a block beyond the head (which includes the pending sentinel,
handled first inside `isBlockGreaterThanLatest`) is `ErrRequestedBlockTooHigh`;
the dedicated pending branch below it is therefore unreachable; otherwise
resolve the number and test membership through the helper. -/
def IsBlockSigner (env : Env) (cache : LruCache SignerData) (blockNumber : Int)
    (address : String) : Except Err Bool × LruCache SignerData :=
  let blockNum := blockNumber
  if blockNum = 0 then (.ok false, cache)
  else if isBlockGreaterThanLatest env blockNum then (.error ErrRequestedBlockTooHigh, cache)
  else if blockNum = pendingBlockNumber then (.error errPendingSigningData, cache)
  else
    let bn : Nat := if blockNum = latestBlockNumber then env.head else toUint64 blockNum
    helperIsSigner env cache address bn

/-- Embeds `GetBlockByNumber` (src/rpc/blockchain.go lines 164-212): call the
admission gate, parse the options, reject pending, resolve latest to the
head, fetch the block, and on a missing block return `(nil, nil)` for the Eth
version and `ErrRequestedBlockTooHigh` otherwise; finally render through the
version's block factory.  The third component counts the `wait` invocations
performed by this call (always exactly one). -/
def GetBlockByNumber (env : Env) (s : Service) (blockNumber : Int) (opts : OptsPayload) :
    Except Err (Option RenderedBlock) × Service × Nat :=
  match s.wait with
  | (.deadlineExceeded, s') => (.error "rate: Wait deadline exceeded", s', 1)
  | (_, s') =>
    match getBlockOptions env s'.version opts with
    | .error e => (.error e, s', 1)
    | .ok blockArgs =>
      if blockNumber = pendingBlockNumber then (.error errPendingNotImplemented, s', 1)
      else
        let blockNum : Nat :=
          if blockNumber = latestBlockNumber then env.head else toUint64 blockNumber
        match env.blockByNumber blockNum with
        | none =>
          if s'.version = .Eth then (.ok none, s', 1)
          else (.error ErrRequestedBlockTooHigh, s', 1)
        | some blk =>
          match env.newBlock s'.version blk blockArgs with
          | .error e => (.error e, s', 1)
          | .ok rb => (.ok (some rb), s', 1)

/-- Embeds the `for i := blockStart; i <= blockEnd; i++` loop of `GetBlocks`
(src/rpc/blockchain.go lines 299-320).  `fuel` is the remaining iteration
count `blockEnd + 1 - i`, so `fuel = 0` is exactly the loop exit `i >
blockEnd`.  Each iteration checks caller cancellation, breaks without error
once `i` passes the current head, and otherwise fetches block `i` through
`GetBlockByNumber` (whose `wait` invocations are accumulated), aborting on
error and collecting non-nil rendered blocks in ascending order. -/
def getBlocksLoop (env : Env) (args : BlockArgs) (cancelled : Bool) (s : Service) (i : Int) :
    Nat → Except Err (List RenderedBlock) × Service × Nat
  | 0 => (.ok [], s, 0)
  | fuel + 1 =>
    if cancelled then (.error errContextCanceled, s, 0)
    else if i > (env.head : Int) then (.ok [], s, 0)
    else
      match GetBlockByNumber env s i (.args args) with
      | (.error e, s', w) => (.error e, s', w)
      | (.ok rb?, s', w) =>
        match getBlocksLoop env args cancelled s' (i + 1) fuel with
        | (.error e, s'', w') => (.error e, s'', w + w')
        | (.ok rest, s'', w') =>
          (.ok ((match rb? with | some rb => [rb] | none => []) ++ rest), s'', w + w')

/-- Embeds `GetBlocks` (src/rpc/blockchain.go lines 281-322): read the raw
start and end, resolve a latest-sentinel end to the current head, reject a
range wider than `rpcGetBlocksLimit`, and run the fetch loop.  The third
component counts the `wait` invocations of the whole call: `GetBlocks` never
calls `wait` itself, only through each iteration's `GetBlockByNumber`. -/
def GetBlocks (env : Env) (s : Service) (blockNumberStart blockNumberEnd : Int)
    (args : BlockArgs) (cancelled : Bool) :
    Except Err (List RenderedBlock) × Service × Nat :=
  let blockStart := blockNumberStart
  let blockEnd := if blockNumberEnd = latestBlockNumber then (env.head : Int) else blockNumberEnd
  if blockEnd ≥ blockStart ∧ blockEnd - blockStart > rpcGetBlocksLimit then
    (.error errGetBlocksRange, s, 0)
  else
    getBlocksLoop env args cancelled s blockStart (blockEnd + 1 - blockStart).toNat

/-- A version-formatted unsigned integer: `hexutil.Uint64` for V1/Eth, a
plain `uint64` for V2. -/
inductive RpcUint where
  | hex (n : Nat)
  | plain (n : Nat)
  deriving DecidableEq, Repr

/-- The `switch s.version` response formatting shared by several methods
(e.g. src/rpc/blockchain.go lines 467-474). -/
def formatRpcUint (version : Version) (n : Nat) : Except Err RpcUint :=
  match version with
  | .V1 | .Eth => .ok (.hex n)
  | .V2 => .ok (.plain n)
  | .Other => .error ErrUnknownRPCVersion

/-- Embeds the `for i := lastBlock; i <= blockHeight; i++` tally loop of
`GetSignedBlocks` (src/rpc/blockchain.go lines 440-445).  `fuel` is the
remaining iteration count `blockHeight + 1 - i`.  Each iteration asks
`IsBlockSigner` (threading the signers cache, whose mutations persist) and
counts a block only when the call returned `(true, nil)`; errors are
silently skipped. -/
def signedTallyLoop (env : Env) (address : String) (cache : LruCache SignerData) (i : Nat) :
    Nat → Nat × LruCache SignerData
  | 0 => (0, cache)
  | fuel + 1 =>
    match IsBlockSigner env cache (i : Int) address with
    | (.ok true, cache') =>
      let (rest, cache'') := signedTallyLoop env address cache' (i + 1) fuel
      (rest + 1, cache'')
    | (_, cache') => signedTallyLoop env address cache' (i + 1) fuel

/-- Embeds `GetSignedBlocks` (src/rpc/blockchain.go lines 425-475).  The
function declares `var totalSigned uint64`; on the pre-staking path the Go
code then writes `totalSigned := uint64(0)` INSIDE the branch, declaring a
new variable that shadows the outer one, so the tally accumulated by the
loop (bound here as `_shadowedTally`) is discarded and the outer variable is
still 0 when the response is formatted.  On the staking path the outer
variable receives the counter difference of the validator's current record
and its previous-epoch snapshot. -/
def GetSignedBlocks (env : Env) (version : Version) (cache : LruCache SignerData)
    (address : String) : Except Err RpcUint × LruCache SignerData :=
  let curEpoch := env.currentEpoch
  if ¬ env.isStakingEpoch curEpoch then
    let blockHeight := env.head
    let bpe := env.blocksPerEpoch curEpoch
    let lastBlock : Nat := if blockHeight ≥ bpe then blockHeight - bpe + 1 else 0
    let (_shadowedTally, cache') :=
      signedTallyLoop env address cache lastBlock (blockHeight + 1 - lastBlock)
    let totalSigned : Nat := 0
    match formatRpcUint version totalSigned with
    | .error e => (.error e, cache')
    | .ok r => (.ok r, cache')
  else
    match env.bech32ToAddress address with
    | .error e => (.error e, cache)
    | .ok ethAddr =>
      match env.readValidatorInformation ethAddr with
      | .error e => (.error e, cache)
      | .ok curVal =>
        match env.readValidatorSnapshot ethAddr with
        | .error e => (.error e, cache)
        | .ok prevVal =>
          let signedInEpoch : Int := curVal.numBlocksSigned - prevVal.numBlocksSigned
          if signedInEpoch < 0 then (.error errNegativeSigned, cache)
          else
            match formatRpcUint version signedInEpoch.toNat with
            | .error e => (.error e, cache)
            | .ok r => (.ok r, cache)

/-- A sample bech32 address used by the concrete test environments. -/
def addrA : String := "one1a"

/-- A second sample bech32 address. -/
def addrB : String := "one1b"

/-- A sample BLS key hex encoding. -/
def hexA : String := "0xa1"

/-- A sample upstream error message. -/
def errProbe : Err := "probe"

/-- Default arguments record used by concrete scenarios. -/
def argsDefault : BlockArgs := { withSigners := false, fullTx := false, inclStaking := true }

/-- Baseline concrete environment for closed evaluations; specific scenarios
override individual fields. -/
def envBase : Env where
  head := 0
  currentEpoch := 0
  isStakingEpoch := fun _ => false
  blocksPerEpoch := fun _ => 1
  blockByNumber := fun _ => none
  getBlockSigners := fun _ => .error errProbe
  addressToBech32 := fun _ => .ok addrA
  keyEnabled := fun _ _ => .ok true
  hexOfKey := fun _ => hexA
  bech32ToAddress := fun _ => .ok 0
  readValidatorInformation := fun _ => .error errProbe
  readValidatorSnapshot := fun _ => .error errProbe
  newBlock := fun _ b _ => .ok b.number
  unmarshalBlockArgs := fun _ => .error errProbe
  stakingTxsFromBlockV1 := fun b => .ok b.number
  stakingTxsFromBlockV2 := fun b => .ok (b.number + 1)

/-- Pre-staking chain at head 3 with 2 blocks per epoch, whose single
committee slot (address 7, key 9) signs every block; address 7 encodes to
`addrA`. -/
def envC2 : Env :=
  { envBase with
      head := 3
      blocksPerEpoch := fun _ => 2
      getBlockSigners := fun _ => .ok ([{ ecdsaAddress := 7, blsPublicKey := 9 }], 0) }

/-- Environment whose roster has one slot and whose key-enabled test reports
an error for every key. -/
def envC3 : Env :=
  { envBase with
      getBlockSigners := fun _ => .ok ([{ ecdsaAddress := 7, blsPublicKey := 9 }], 0)
      keyEnabled := fun _ _ => .error errProbe }

/-- Chain at head 5 with no stored blocks. -/
def envC4 : Env := { envBase with head := 5 }

/-- Chain at head 3 where every requested block exists. -/
def envBlocks : Env :=
  { envBase with head := 3, blockByNumber := fun n => some { number := n } }

/-- Two-slot roster (addresses 7 and 8, keys 9 and 10); the mask enables only
key 9, address 7 encodes to `addrA` and every other address to `addrB`. -/
def envRoster : Env :=
  { envBase with
      head := 5
      getBlockSigners := fun _ =>
        .ok ([{ ecdsaAddress := 7, blsPublicKey := 9 },
              { ecdsaAddress := 8, blsPublicKey := 10 }], 0)
      addressToBech32 := fun a => if a = 7 then .ok addrA else .ok addrB
      keyEnabled := fun _ k => if k = 9 then .ok true else .ok false }

/-- The signer data `getSignerData` computes in `envRoster`. -/
def sdRoster : SignerData :=
  { signers := [addrA]
    blsSigners := [hexA]
    slots := [{ ecdsaAddress := 7, blsPublicKey := 9 },
              { ecdsaAddress := 8, blsPublicKey := 10 }]
    mask := 0 }

/-- The signer data `getSignerData` computes in `envC3`: the single slot is
skipped because its key-enabled test errors, yet resolution succeeds. -/
def sdC3 : SignerData where
  signers := []
  blsSigners := []
  slots := [{ ecdsaAddress := 7, blsPublicKey := 9 }]
  mask := 0

/-- The slot-inclusion test of the `getSignerData` loop: a slot is kept
exactly when `mask.KeyEnabled` returns `(true, nil)`. -/
def keepSlot (env : Env) (mask : Mask) (v : Slot) : Bool :=
  match env.keyEnabled mask v.blsPublicKey with
  | .ok true => true
  | _ => false

/-- Block `i` can be fetched and rendered: the chain store holds it and the
version's block factory accepts it. -/
def fetchRenderOk (env : Env) (ver : Version) (args : BlockArgs) (i : Int) : Prop :=
  ∃ blk rb, env.blockByNumber (toUint64 i) = some blk ∧ env.newBlock ver blk args = .ok rb

/-! Helper lemmas shared by the claim theorems. -/

/-- A missed `Get` leaves the cache untouched. -/
theorem lruGet_of_lookup_none {V : Type} (c : LruCache V) (k : Nat)
    (h : c.lookup k = none) : c.get k = (none, c) := by
  unfold LruCache.lookup at h
  unfold LruCache.get
  rcases hf : c.entries.find? (fun p => p.1 == k) with _ | kv
  · rw [hf]
  · rw [hf] at h
    simp at h

/-- A hit `Get` returns the stored value (and renews the entry). -/
theorem lruGet_of_lookup_some {V : Type} (c : LruCache V) (k : Nat) (v : V)
    (h : c.lookup k = some v) :
    c.get k =
      (some v,
       { cap := c.cap, entries := (k, v) :: c.entries.filter (fun p => p.1 != k) }) := by
  unfold LruCache.lookup at h
  unfold LruCache.get
  rcases hf : c.entries.find? (fun p => p.1 == k) with _ | kv
  · rw [hf] at h
    cases h
  · rw [hf] at h
    have h2 : kv.2 = v := by simpa using h
    cases h2
    rw [hf]

/-- After `Add` on a cache of positive capacity, the key maps to the value. -/
theorem lruLookup_add_self {V : Type} (c : LruCache V) (k : Nat) (v : V)
    (h : 0 < c.cap) : (c.add k v).lookup k = some v := by
  unfold LruCache.add LruCache.lookup
  rcases hc : c.cap with _ | n
  · omega
  · rw [List.take_succ_cons]
    rw [List.find?_cons_of_pos _ (by simp)]
    rfl

/-- The slot loop under total bech32 encoding: the output lists are the
kept slots, in roster order, mapped through the two encoders. -/
theorem signersOfSlots_filter_map (env : Env) (mask : Mask) (f : Slot → String) :
    ∀ slots : List Slot,
      (∀ v ∈ slots, env.addressToBech32 v.ecdsaAddress = .ok (f v)) →
      signersOfSlots env mask slots =
        .ok ((slots.filter (keepSlot env mask)).map f,
             (slots.filter (keepSlot env mask)).map (fun v => env.hexOfKey v.blsPublicKey)) := by
  intro slots
  induction slots with
  | nil => intro _; rfl
  | cons v rest ih =>
    intro h
    have hv : env.addressToBech32 v.ecdsaAddress = .ok (f v) := h v (by simp)
    have hrest := ih (fun w hw => h w (by simp [hw]))
    unfold signersOfSlots
    rw [hv, hrest]
    rcases hk : env.keyEnabled mask v.blsPublicKey with e | b
    · simp [List.filter_cons, keepSlot, hk]
    · cases b <;> simp [List.filter_cons, keepSlot, hk]

/-- Lock-step decomposition of the slot loop's two output lists: both arise
from one sub-list of the roster, kept in roster order. -/
theorem signersOfSlots_lockstep (env : Env) (mask : Mask) :
    ∀ (slots : List Slot) (ss bs : List String),
      signersOfSlots env mask slots = .ok (ss, bs) →
      ∃ filtered : List Slot, List.Sublist filtered slots ∧
        List.Forall₂ (fun v a => env.addressToBech32 v.ecdsaAddress = .ok a) filtered ss ∧
        bs = filtered.map (fun v => env.hexOfKey v.blsPublicKey) := by
  intro slots
  induction slots with
  | nil =>
    intro ss bs h
    unfold signersOfSlots at h
    simp only [Except.ok.injEq, Prod.mk.injEq] at h
    obtain ⟨h1, h2⟩ := h
    exact ⟨[], List.nil_sublist _, h1 ▸ List.Forall₂.nil, by simp [h2.symm]⟩
  | cons v rest ih =>
    intro ss bs h
    unfold signersOfSlots at h
    rcases ha : env.addressToBech32 v.ecdsaAddress with e | a <;> rw [ha] at h
    · cases h
    rcases hr : signersOfSlots env mask rest with e | p <;> rw [hr] at h
    · cases h
    obtain ⟨rs, rb⟩ := p
    obtain ⟨filtered, hsub, hf2, hmap⟩ := ih rs rb hr
    rcases hk : env.keyEnabled mask v.blsPublicKey with e | b <;> rw [hk] at h
    · simp only [Except.ok.injEq, Prod.mk.injEq] at h
      obtain ⟨h1, h2⟩ := h
      exact ⟨filtered, hsub.cons v, h1 ▸ hf2, by simp [h2.symm, hmap]⟩
    · cases b
      · simp only [Except.ok.injEq, Prod.mk.injEq] at h
        obtain ⟨h1, h2⟩ := h
        exact ⟨filtered, hsub.cons v, h1 ▸ hf2, by simp [h2.symm, hmap]⟩
      · simp only [Except.ok.injEq, Prod.mk.injEq] at h
        obtain ⟨h1, h2⟩ := h
        refine ⟨v :: filtered, hsub.cons₂ v, ?_, ?_⟩
        · exact h1 ▸ List.Forall₂.cons ha hf2
        · simp [h2.symm, hmap]

/-- With a nil limiter, `wait` is an immediate success leaving the service
unchanged. -/
theorem wait_of_limiter_none (s : Service) (h : s.limiter = none) :
    s.wait = (.immediateOk, s) := by
  unfold Service.wait
  rw [h]

/-- A `GetBlockByNumber` call for an existing, renderable concrete block on a
nil-limiter service: one `wait`, the rendered block, service unchanged. -/
theorem getBlockByNumber_fetch_ok (env : Env) (s : Service) (args : BlockArgs) (i : Int)
    (hlim : s.limiter = none) (hi : 0 ≤ i)
    (hf : fetchRenderOk env s.version args i) :
    ∃ rb, GetBlockByNumber env s i (.args args) = (.ok (some rb), s, 1) := by
  obtain ⟨blk, rb, hblk, hrb⟩ := hf
  refine ⟨rb, ?_⟩
  unfold GetBlockByNumber
  rw [wait_of_limiter_none s hlim]
  have h1 : ¬i = pendingBlockNumber := by unfold pendingBlockNumber; omega
  have h2 : ¬i = latestBlockNumber := by unfold latestBlockNumber; omega
  simp [getBlockOptions, h1, h2, hblk, hrb]

/-- The `GetBlocks` fetch loop over a fully in-range, fully fetchable window
performs exactly one `wait` per iterated block and succeeds. -/
theorem getBlocksLoop_count (env : Env) (args : BlockArgs) (s : Service)
    (hlim : s.limiter = none) :
    ∀ (fuel : Nat) (i : Int), 0 ≤ i → i + fuel ≤ (env.head : Int) + 1 →
      (∀ j : Int, i ≤ j → j < i + fuel → fetchRenderOk env s.version args j) →
      ∃ l, getBlocksLoop env args false s i fuel = (.ok l, s, fuel) := by
  intro fuel
  induction fuel with
  | zero => intro i _ _ _; exact ⟨[], rfl⟩
  | succ n ih =>
    intro i hi hle hfetch
    obtain ⟨rb, hgb⟩ :=
      getBlockByNumber_fetch_ok env s args i hlim hi (hfetch i le_rfl (by omega))
    obtain ⟨l, hl⟩ :=
      ih (i + 1) (by omega) (by omega) (fun j hj1 hj2 => hfetch j (by omega) (by omega))
    refine ⟨rb :: l, ?_⟩
    unfold getBlocksLoop
    have hh : ¬i > (env.head : Int) := by omega
    simp [hh, hgb, hl, Nat.add_comm]

/-! Claim theorems. -/

/-- C1: the claim states that a service constructed with the rate limiter
enabled at rate 0 makes `wait` block up to the 5-second timeout and fail
with a deadline-exceeded error, while a disabled limiter makes `wait`
succeed immediately.  In the code the `limiter := rate.NewLimiter(...)`
inside `if limiterEnable` shadows the outer `limiter` variable, so every
constructed service carries a nil limiter and `wait` returns success
immediately — for every version, every enable flag and every rate, the
enabled-at-rate-0 service behaves exactly like the disabled one. -/
theorem c1_wait_always_immediate (v : Version) (enable : Bool) (limit : Int) :
    (NewPublicBlockchainAPI v enable limit).limiter = none ∧
    (NewPublicBlockchainAPI v enable limit).wait =
      (.immediateOk, NewPublicBlockchainAPI v enable limit) :=
  ⟨rfl, rfl⟩

/-- C2: the claim states that before the staking epoch `GetSignedBlocks`
returns the tally of the current epoch window's blocks whose signer set
contains the address.  In `envC2` (head 3, 2 blocks per epoch, pre-staking)
the window is blocks 2..3, both signed by `addrA`, so the rescan tally is 2
— yet `GetSignedBlocks` answers 0, because the `totalSigned := uint64(0)`
inside the pre-staking branch shadows the outer `totalSigned` and the tally
is discarded. -/
theorem c2_signed_blocks_returns_zero :
    (GetSignedBlocks envC2 .V1 (newCache SignerData) addrA).1 = .ok (.hex 0) ∧
    (signedTallyLoop envC2 addrA (newCache SignerData) 2 2).1 = 2 ∧
    envC2.head = 3 ∧ envC2.blocksPerEpoch envC2.currentEpoch = 2 ∧
    envC2.isStakingEpoch envC2.currentEpoch = false :=
  ⟨by decide, by decide, rfl, rfl, rfl⟩

/-- C3 counterexample: in `envC3` the key-enabled test reports an error for
the roster's only slot, yet `getSignerData` succeeds (with the slot silently
skipped) instead of failing and propagating the error as the claim states. -/
theorem c3_counterexample :
    getSignerData envC3 1 = .ok sdC3 ∧ envC3.keyEnabled 0 9 = .error errProbe :=
  ⟨by decide, rfl⟩

/-- C3 amended: when the roster and mask are available and every slot's
bech32 address encoding succeeds, signer resolution always succeeds, and a
slot whose key-enabled test reports an error (or `false`) is silently
excluded from both signer lists — `KeyEnabled` errors are skipped, not
propagated; only roster-fetch and bech32-encoding errors propagate. -/
theorem c3_amended_key_error_skipped (env : Env) (n : Nat) (slots : List Slot) (mask : Mask)
    (f : Slot → String)
    (hro : env.getBlockSigners n = .ok (slots, mask))
    (hbech : ∀ v ∈ slots, env.addressToBech32 v.ecdsaAddress = .ok (f v)) :
    getSignerData env n =
      .ok { signers := (slots.filter (keepSlot env mask)).map f
            blsSigners := (slots.filter (keepSlot env mask)).map
              (fun v => env.hexOfKey v.blsPublicKey)
            slots := slots
            mask := mask } := by
  unfold getSignerData
  rw [hro]
  simp only [signersOfSlots_filter_map env mask f slots hbech]

/-- C3 witness: in the two-slot roster environment the enabled slot is kept
and the disabled slot dropped, per `c3_amended_key_error_skipped`. -/
theorem c3_amended_witness : getSignerData envRoster 1 = .ok sdRoster := by
  have h := c3_amended_key_error_skipped envRoster 1
    [{ ecdsaAddress := 7, blsPublicKey := 9 }, { ecdsaAddress := 8, blsPublicKey := 10 }] 0
    (fun v => if v.ecdsaAddress = 7 then addrA else addrB) rfl (by decide)
  exact h.trans (by decide)

/-- C4 counterexample: in `envC4` (head 5) block 6 is beyond the head, so
the claim demands `IsBlockSigner` answer `false` with no error; the code
instead fails with `ErrRequestedBlockTooHigh`. -/
theorem c4_counterexample :
    (IsBlockSigner envC4 (newCache SignerData) 6 addrA).1 = .error ErrRequestedBlockTooHigh ∧
    (envC4.head : Int) ≤ 6 :=
  ⟨by decide, by decide⟩

/-- C4 amended: for every concrete block number, `GetBlockSigners` and
`GetBlockSignerKeys` return an empty list with no error for block 0 and for
every block at or beyond the current head; `IsBlockSigner` returns `false`
with no error only for block 0, and fails with `ErrRequestedBlockTooHigh`
for every block strictly beyond the head. -/
theorem c4_amended_guards (env : Env) (cache : LruCache SignerData) (n : Int) (addr : String)
    (hn0 : 0 ≤ n) (hn2 : n < 2 ^ 64) :
    ((n = 0 ∨ n ≥ (env.head : Int)) →
       GetBlockSigners env cache n = (.ok [], cache) ∧
       GetBlockSignerKeys env cache n = (.ok [], cache)) ∧
    IsBlockSigner env cache 0 addr = (.ok false, cache) ∧
    ((env.head : Int) < n →
       IsBlockSigner env cache n addr = (.error ErrRequestedBlockTooHigh, cache)) := by
  have hp : ¬n = pendingBlockNumber := by unfold pendingBlockNumber; omega
  refine ⟨fun h => ⟨?_, ?_⟩, ?_, fun h => ?_⟩
  · unfold GetBlockSigners
    rw [if_neg hp, if_pos h]
  · unfold GetBlockSignerKeys
    rw [if_neg hp, if_pos h]
  · unfold IsBlockSigner
    rw [if_pos rfl]
  · have hgt : isBlockGreaterThanLatest env n = true := by
      unfold isBlockGreaterThanLatest
      rw [if_neg hp, if_neg (show ¬n = latestBlockNumber by unfold latestBlockNumber; omega)]
      simp only [decide_eq_true_eq]
      rwa [Int.emod_eq_of_lt hn0 hn2]
    unfold IsBlockSigner
    rw [if_neg (show ¬n = 0 by omega), if_pos hgt]

/-- C4 witness: at head 5, block 7 yields the empty signer list but a
too-high error from `IsBlockSigner`. -/
theorem c4_amended_witness :
    GetBlockSigners envC4 (newCache SignerData) 7 = (.ok [], newCache SignerData) ∧
    IsBlockSigner envC4 (newCache SignerData) 7 addrA
      = (.error ErrRequestedBlockTooHigh, newCache SignerData) := by
  have h := c4_amended_guards envC4 (newCache SignerData) 7 addrA (by decide) (by decide)
  exact ⟨(h.1 (by decide)).1, h.2.2 (by decide)⟩

/-- C5 counterexample: fetching the two-block range 1..2 (chain head 3,
every block present and renderable) performs two `wait` invocations — one
per fetched block — not the single per-query invocation the claim states. -/
theorem c5_counterexample :
    (GetBlocks envBlocks { version := .V1, limiter := none } 1 2 argsDefault false).2.2 = 2 := by
  decide

/-- C5 amended: `GetBlocks` performs no admission-gate `wait` of its own;
every iterated block is fetched through `GetBlockByNumber`, which performs
exactly one `wait`, so a fully in-range, fully fetchable `GetBlocks(a, b)`
performs exactly `b - a + 1` waits — one per internal sub-operation rather
than one per query. -/
theorem c5_amended_wait_per_block (env : Env) (s : Service) (a b : Int) (args : BlockArgs)
    (hlim : s.limiter = none) (ha : 0 ≤ a) (hab : a ≤ b) (hbh : b ≤ (env.head : Int))
    (hrange : b - a ≤ rpcGetBlocksLimit)
    (hok : ∀ j : Int, a ≤ j → j ≤ b → fetchRenderOk env s.version args j) :
    (GetBlocks env s a b args false).2.2 = (b - a + 1).toNat ∧
    ∃ l, (GetBlocks env s a b args false).1 = .ok l := by
  have hbne : ¬b = latestBlockNumber := by unfold latestBlockNumber; omega
  have hcond : ¬(b ≥ a ∧ b - a > rpcGetBlocksLimit) := by
    unfold rpcGetBlocksLimit at hrange ⊢
    omega
  obtain ⟨l, hl⟩ := getBlocksLoop_count env args s hlim (b + 1 - a).toNat a ha (by omega)
    (fun j hj1 hj2 => hok j hj1 (by omega))
  unfold GetBlocks
  simp only [if_neg hbne, if_neg hcond]
  rw [hl]
  exact ⟨by simp; omega, l, rfl⟩

/-- C5 witness: the four-block range 0..3 at head 3 performs four waits. -/
theorem c5_amended_witness :
    (GetBlocks envBlocks { version := Version.V1, limiter := none } 0 3 argsDefault false).2.2
      = 4 := by
  have h := c5_amended_wait_per_block envBlocks { version := .V1, limiter := none } 0 3
    argsDefault rfl (by decide) (by decide) (by decide) (by decide)
    (fun j hj1 hj2 => ⟨{ number := toUint64 j }, toUint64 j, rfl, rfl⟩)
  simpa using h.1

/-- C6: for every height strictly above the current head (the chain store
holds no block beyond the head), `GetBlockByNumber` returns an absent
result with no error on the Eth variant and fails with
`ErrRequestedBlockTooHigh` on the V1 and V2 variants. -/
theorem c6_not_yet_produced (env : Env) (n : Int) (args : BlockArgs)
    (hn : (env.head : Int) < n) (hn2 : n < 2 ^ 64)
    (hchain : ∀ m : Nat, env.head < m → env.blockByNumber m = none) :
    (GetBlockByNumber env { version := .Eth, limiter := none } n (.args args)).1 = .ok none ∧
    (GetBlockByNumber env { version := .V1, limiter := none } n (.args args)).1
      = .error ErrRequestedBlockTooHigh ∧
    (GetBlockByNumber env { version := .V2, limiter := none } n (.args args)).1
      = .error ErrRequestedBlockTooHigh := by
  have h0 : 0 ≤ n := by omega
  have hnone : env.blockByNumber (toUint64 n) = none := by
    apply hchain
    unfold toUint64
    rw [Int.emod_eq_of_lt h0 hn2]
    omega
  have key : ∀ v : Version,
      (GetBlockByNumber env { version := v, limiter := none } n (.args args)).1
        = if v = .Eth then .ok none else .error ErrRequestedBlockTooHigh := by
    intro v
    unfold GetBlockByNumber
    rw [wait_of_limiter_none _ rfl]
    have h1 : ¬n = pendingBlockNumber := by unfold pendingBlockNumber; omega
    have h2 : ¬n = latestBlockNumber := by unfold latestBlockNumber; omega
    simp only [getBlockOptions, if_neg h1, if_neg h2, hnone]
    by_cases hv : v = .Eth <;> simp [hv]
  exact ⟨by simpa using key .Eth, by simpa using key .V1, by simpa using key .V2⟩

/-- C6 witness: at head 5 with an empty store, height 7 is absent-no-error
on Eth and too-high on V1. -/
theorem c6_witness :
    (GetBlockByNumber envC4 { version := Version.Eth, limiter := none } 7
       (.args argsDefault)).1 = .ok none ∧
    (GetBlockByNumber envC4 { version := Version.V1, limiter := none } 7
       (.args argsDefault)).1 = .error ErrRequestedBlockTooHigh := by
  have h := c6_not_yet_produced envC4 7 argsDefault (by decide) (by decide) (fun m hm => rfl)
  exact ⟨h.1, h.2.1⟩

/-- C7: for all concrete (non-negative, hence non-sentinel) block numbers
`a` and `b` with `b - a > 1024`, `GetBlocks` fails with the range-size error
before any fetch, for every environment — in particular for every position
of the chain head — and for every cancellation state. -/
theorem c7_range_limit (env : Env) (s : Service) (a b : Int) (args : BlockArgs)
    (cancelled : Bool) (_ha : 0 ≤ a) (hb : 0 ≤ b) (hgt : b - a > rpcGetBlocksLimit) :
    GetBlocks env s a b args cancelled = (.error errGetBlocksRange, s, 0) := by
  have hbne : ¬b = latestBlockNumber := by unfold latestBlockNumber; omega
  have hcond : b ≥ a ∧ b - a > rpcGetBlocksLimit := by
    unfold rpcGetBlocksLimit at hgt ⊢
    omega
  unfold GetBlocks
  simp only [if_neg hbne, if_pos hcond]

/-- C7 witness: the range 0..2000 is rejected with the range-size error. -/
theorem c7_witness :
    GetBlocks envBase { version := Version.V1, limiter := none } 0 2000 argsDefault false
      = (.error errGetBlocksRange, { version := Version.V1, limiter := none }, 0) :=
  c7_range_limit envBase { version := Version.V1, limiter := none } 0 2000 argsDefault false
    (by decide) (by decide) (by decide)

/-- C8: whenever signer resolution succeeds, the returned address and BLS
key lists have equal length and arise in lock-step from one sub-list of the
committee roster kept in roster order: index `i` of both lists encodes the
same kept slot. -/
theorem c8_lockstep (env : Env) (n : Nat) (sd : SignerData)
    (h : getSignerData env n = .ok sd) :
    sd.signers.length = sd.blsSigners.length ∧
    ∃ filtered : List Slot, List.Sublist filtered sd.slots ∧
      List.Forall₂ (fun v a => env.addressToBech32 v.ecdsaAddress = .ok a)
        filtered sd.signers ∧
      sd.blsSigners = filtered.map (fun v => env.hexOfKey v.blsPublicKey) := by
  rcases hro : env.getBlockSigners n with e | p
  · simp [getSignerData, hro] at h
  obtain ⟨slots, mask⟩ := p
  rcases hloop : signersOfSlots env mask slots with e | q
  · simp [getSignerData, hro, hloop] at h
  obtain ⟨ss, bs⟩ := q
  simp only [getSignerData, hro, hloop, Except.ok.injEq] at h
  subst h
  obtain ⟨filtered, hsub, hf2, hmap⟩ := signersOfSlots_lockstep env mask slots ss bs hloop
  refine ⟨?_, filtered, hsub, hf2, hmap⟩
  have l1 := List.Forall₂.length_eq hf2
  simp only [hmap, List.length_map]
  omega

/-- C8 witness: in the two-slot roster environment resolution succeeds and
the two lists have equal length. -/
theorem c8_witness : sdRoster.signers.length = sdRoster.blsSigners.length :=
  (c8_lockstep envRoster 1 sdRoster (by decide)).1

/-- C9: for both derived-data caches embedded here (the signer cache of
`bcServiceHelper.getSignerData` and the staking-transactions cache of
`GetStakingTxs`): a hit returns the stored value without invoking the
computation; a miss invokes it; a successful computation is stored, so an
immediate repeat of the call hits without recomputing; a failed computation
returns the error with the cache unchanged, so a repeat of the call invokes
the computation again. -/
theorem c9_get_or_compute (env : Env) (ver : Version) (c1 : LruCache SignerData)
    (c2 : LruCache StkList) (bn : Nat) (b : Block)
    (hcap1 : 0 < c1.cap) (hcap2 : 0 < c2.cap) :
    (∀ sd, c1.lookup bn = some sd →
       (bcHelperGetSignerData env c1 bn).1 = .ok sd ∧
       (bcHelperGetSignerData env c1 bn).2.2 = false) ∧
    (c1.lookup bn = none →
       (bcHelperGetSignerData env c1 bn).2.2 = true ∧
       (∀ sd, getSignerData env bn = .ok sd →
          bcHelperGetSignerData env c1 bn = (.ok sd, c1.add bn sd, true) ∧
          (c1.add bn sd).lookup bn = some sd ∧
          (bcHelperGetSignerData env (c1.add bn sd) bn).1 = .ok sd ∧
          (bcHelperGetSignerData env (c1.add bn sd) bn).2.2 = false) ∧
       (∀ e, getSignerData env bn = .error e →
          bcHelperGetSignerData env c1 bn = (.error (wrapGetSignerDataMsg ++ e), c1, true))) ∧
    (∀ x, c2.lookup b.number = some x →
       (GetStakingTxs env ver c2 b).1 = .ok x ∧
       (GetStakingTxs env ver c2 b).2.2 = false) ∧
    (c2.lookup b.number = none →
       (GetStakingTxs env ver c2 b).2.2 = true ∧
       (∀ x, stakingTxsCompute env ver b = .ok x →
          GetStakingTxs env ver c2 b = (.ok x, c2.add b.number x, true) ∧
          (c2.add b.number x).lookup b.number = some x ∧
          (GetStakingTxs env ver (c2.add b.number x) b).1 = .ok x ∧
          (GetStakingTxs env ver (c2.add b.number x) b).2.2 = false) ∧
       (∀ e, stakingTxsCompute env ver b = .error e →
          GetStakingTxs env ver c2 b = (.error e, c2, true))) := by
  refine ⟨fun sd h => ?_, fun h => ⟨?_, fun sd hsd => ?_, fun e he => ?_⟩,
    fun x h => ?_, fun h => ⟨?_, fun x hx => ?_, fun e he => ?_⟩⟩
  · unfold bcHelperGetSignerData
    rw [lruGet_of_lookup_some c1 bn sd h]
    exact ⟨rfl, rfl⟩
  · unfold bcHelperGetSignerData
    rw [lruGet_of_lookup_none c1 bn h]
    rcases hsd : getSignerData env bn with e | sd <;> rfl
  · have hl := lruLookup_add_self c1 bn sd hcap1
    have hsecond : (bcHelperGetSignerData env (c1.add bn sd) bn).1 = .ok sd ∧
        (bcHelperGetSignerData env (c1.add bn sd) bn).2.2 = false := by
      unfold bcHelperGetSignerData
      rw [lruGet_of_lookup_some (c1.add bn sd) bn sd hl]
      exact ⟨rfl, rfl⟩
    refine ⟨?_, hl, hsecond.1, hsecond.2⟩
    unfold bcHelperGetSignerData
    rw [lruGet_of_lookup_none c1 bn h, hsd]
  · unfold bcHelperGetSignerData
    rw [lruGet_of_lookup_none c1 bn h, he]
  · unfold GetStakingTxs
    rw [lruGet_of_lookup_some c2 b.number x h]
    exact ⟨rfl, rfl⟩
  · unfold GetStakingTxs
    rw [lruGet_of_lookup_none c2 b.number h]
    rcases hc : stakingTxsCompute env ver b with e | x <;> rfl
  · have hl := lruLookup_add_self c2 b.number x hcap2
    have hsecond : (GetStakingTxs env ver (c2.add b.number x) b).1 = .ok x ∧
        (GetStakingTxs env ver (c2.add b.number x) b).2.2 = false := by
      unfold GetStakingTxs
      rw [lruGet_of_lookup_some (c2.add b.number x) b.number x hl]
      exact ⟨rfl, rfl⟩
    refine ⟨?_, hl, hsecond.1, hsecond.2⟩
    unfold GetStakingTxs
    rw [lruGet_of_lookup_none c2 b.number h, hx]
  · unfold GetStakingTxs
    rw [lruGet_of_lookup_none c2 b.number h, he]

/-- C9 witness: on fresh caches (capacity 2048) a miss computes and stores,
for both the signer cache and the staking-transactions cache. -/
theorem c9_witness :
    bcHelperGetSignerData envRoster (newCache SignerData) 1
      = (.ok sdRoster, (newCache SignerData).add 1 sdRoster, true) ∧
    GetStakingTxs envRoster Version.V1 (newCache StkList) { number := 1 }
      = (.ok 1, (newCache StkList).add 1 1, true) := by
  have h := c9_get_or_compute envRoster Version.V1 (newCache SignerData) (newCache StkList)
    1 { number := 1 } (by decide) (by decide)
  exact ⟨((h.2.1 rfl).2.1 sdRoster (by decide)).1, ((h.2.2.2 rfl).2.1 1 rfl).1⟩

/-- C10: on V1 and Eth a bare boolean payload parses into options with
full-transactions equal to the boolean, signers off and staking inclusion
on; and a payload that already is a structured `BlockArgs` is accepted
as-is on every variant. -/
theorem c10_block_options (env : Env) (b : Bool) (a : BlockArgs) (v : Version) :
    getBlockOptions env .V1 (.boolOpt b)
      = .ok { withSigners := false, fullTx := b, inclStaking := true } ∧
    getBlockOptions env .Eth (.boolOpt b)
      = .ok { withSigners := false, fullTx := b, inclStaking := true } ∧
    getBlockOptions env v (.args a) = .ok a :=
  ⟨rfl, rfl, rfl⟩

end Harmony
